import Mathlib

/-!
Verification of the token caching and refresh layer of the onboarding-python
SDK (`alice/auth/cached_token_stack.py`, `alice/auth/token_tools.py`,
`alice/auth/auth_client.py`, `alice/auth/auth.py`).

The Python code is shallowly embedded:

* an `OrderedDict` is a `List (String × String)` in insertion order
  (oldest entry first); Python dict assignment on an existing key keeps the
  entry at its position, which `dictSet` mirrors;
* JWT decoding (`jwt.decode`, library code) is abstracted as a parameter
  `decode : String → Option (List (String × Int))` returning the decoded
  claims (`none` models `jwt.DecodeError`);
* the wall clock is frozen at the instant of the run: the validity of a
  decodable token is then a pure function of the token string, abstracted as
  a parameter `validExp : String → Bool` (`validExp t` models
  `jwt.decode(t)["exp"] > time.time() - margin` for tokens that decode);
* the HTTP transport is a deterministic oracle `Endpoint → TransportOutcome`;
  issued requests are logged as a list of endpoints.
-/

set_option autoImplicit false

namespace Alice

/-- A parsed JSON object body, as the string-to-string dictionaries this
client reads (`{"token": ...}`, `{"message": ...}`). -/
abbrev JsonBody := List (String × String)

/-- A `requests.Response` as observed by this layer: status code plus the
parsed JSON body; `json = none` models a body on which `.json()` raises. -/
structure HttpResponse where
  status : Nat
  json : Option JsonBody
  deriving DecidableEq, Repr

/-! ### token_tools.py -/

/-- Failure modes of `jwt.decode`-based validity checking: `decodeError`
models `jwt.exceptions.DecodeError` on a malformed token, `missingExpClaim`
models the `KeyError` from `decoded_token["exp"]`. -/
inductive DecodeFailure where
  | decodeError
  | missingExpClaim
  deriving DecidableEq, Repr

/-- Python `token_tools.is_valid_token`: `if not token: return False`, then
`jwt.decode(token, options={"verify_signature": False})` (which raises on a
malformed token), then `decoded_token["exp"] > time.time() - margin_seconds`
(which raises `KeyError` when the claim is absent).  `decode` abstracts
`jwt.decode`; `now` is `time.time()` at the instant of the call.  A raised
exception is an `Except.error`. -/
def is_valid_token (decode : String → Option (List (String × Int)))
    (now margin_seconds : Int) : Option String → Except DecodeFailure Bool
  | none => .ok false
  | some t =>
    if t = "" then .ok false
    else
      match decode t with
      | none => .error .decodeError
      | some claims =>
        match claims.find? (fun c => c.1 == "exp") with
        | none => .error .missingExpClaim
        | some c => .ok (decide (c.2 > now - margin_seconds))

/-- Validity of a token string at the frozen instant, for tokens on which
`is_valid_token` does not raise: the `if not token` truthiness test followed
by the abstracted expiry check `validExp`. -/
def is_valid_tokenB (validExp : String → Bool) (t : String) : Bool :=
  t != "" && validExp t

/-- Validity of an optional token (`None` in Python is always invalid). -/
def is_valid_tokenO (validExp : String → Bool) : Option String → Bool
  | none => false
  | some t => is_valid_tokenB validExp t

/-- The expiry check induced by a concrete `decode` oracle and instant:
`validExp` instantiated from `is_valid_token`'s non-raising branch. -/
def validExpOf (decode : String → Option (List (String × Int))) (now : Int)
    (t : String) : Bool :=
  match decode t with
  | none => false
  | some claims =>
    match claims.find? (fun c => c.1 == "exp") with
    | none => false
    | some c => decide (c.2 > now - 60)

/-- Python `token_tools.get_token_from_response`: `response.json().get("token")`. -/
def get_token_from_response (r : HttpResponse) : Option String :=
  r.json.bind fun b => (b.find? (fun f => f.1 == "token")).map (·.2)

/-- Python `token_tools.get_reponse_from_token` (source spelling preserved): a
synthesized 200 response whose JSON body is `{"token": token}`. -/
def get_reponse_from_token (token : String) : HttpResponse :=
  { status := 200, json := some [("token", token)] }

/-! ### cached_token_stack.py -/

/-- The `OrderedDict` state of a `CachedTokenStack`: entries in insertion
order, oldest first. -/
abbrev Cache := List (String × String)

/-- Python `self._data.get(user_id)`: the value of the first (in an `OrderedDict`,
the only) entry with the given key. -/
def dictGet (k : String) : Cache → Option String
  | [] => none
  | e :: rest => if e.1 = k then some e.2 else dictGet k rest

/-- Python `self._data[user_id] = token`: overwrite in place when the key exists
(a Python dict keeps the entry's position), append otherwise. -/
def dictSet (k v : String) : Cache → Cache
  | [] => [(k, v)]
  | e :: rest => if e.1 = k then (k, v) :: rest else e :: dictSet k v rest

namespace CachedTokenStack

/-- Python `CachedTokenStack.add`. -/
def add (user_id token : String) (d : Cache) : Cache :=
  dictSet user_id token d

/-- The reversed-values scan of `_clear_expired_tokens`: the value of the
latest-inserted entry failing `is_valid_token`. -/
def latestExpiredToken (validExp : String → Bool) (d : Cache) : Option String :=
  (d.reverse.map Prod.snd).find? (fun t => !is_valid_tokenB validExp t)

/-- The `while exist_expired_tokens` loop of `_clear_expired_tokens`:
`popitem(last=False)` repeatedly, stopping once the popped value equals `v`.
(The source can only reach this loop with `v` a stored value, so the dict
never empties first; on the unreachable empty dict Python's `popitem` would
raise, here the result is `[]`.) -/
def popUntil (v : String) : Cache → Cache
  | [] => []
  | e :: rest => if e.2 = v then rest else popUntil v rest

/-- Python `CachedTokenStack._clear_expired_tokens`.  Note the source's
`if latest_expired_token:` truthiness test: a found expired value that is
`None` or the empty string disables the removal loop. -/
def clearExpiredTokens (validExp : String → Bool) (d : Cache) : Cache :=
  if 0 < d.length then
    match latestExpiredToken validExp d with
    | none => d
    | some v => if v = "" then d else popUntil v d
  else d

/-- Python `CachedTokenStack._clear_if_max_size_has_been_exceeded`: pop the
`num_items - max_size` oldest entries when the bound is exceeded. -/
def clearIfMaxSizeExceeded (maxSize : Nat) (d : Cache) : Cache :=
  if maxSize < d.length then d.drop (d.length - maxSize) else d

/-- Python `CachedTokenStack.get`: look the key up first; if (and only if) the found
token is truthy, run the expiry sweep then the capacity sweep; return the
token captured before the sweeps together with the resulting state. -/
def get (validExp : String → Bool) (maxSize : Nat) (user_id : String)
    (d : Cache) : Option String × Cache :=
  match dictGet user_id d with
  | none => (none, d)
  | some t =>
    if t = "" then (some t, d)
    else (some t, clearIfMaxSizeExceeded maxSize (clearExpiredTokens validExp d))

end CachedTokenStack

/-- The `max_size` default of `CachedTokenStack.__init__`, used by both
stacks an `AuthClient` constructs. -/
def defaultMaxSize : Nat := 5000

/-! ### auth_client.py -/

/-- The token endpoints of the auth service reached by `AuthClient`
(relative to the base URL). -/
inductive Endpoint where
  | loginToken
  | backendToken
  | backendTokenUser (user_id : String)
  | userToken (user_id : String)
  deriving DecidableEq, Repr

/-- Outcome of one `session.get` call: either a response or a raised
`requests.exceptions.Timeout`. -/
inductive TransportOutcome where
  | timeout
  | ok (resp : HttpResponse)
  deriving DecidableEq, Repr

/-- The HTTP transport, as a deterministic oracle. -/
abbrev Oracle := Endpoint → TransportOutcome

/-- Python `auth_client.get_response_timeout`: the synthetic 408 response the client
substitutes for a raised transport timeout. -/
def get_response_timeout : HttpResponse :=
  { status := 408, json := some [("message", "Request timed out")] }

/-- The mutable fields of an `AuthClient`: `_cached_login_token`,
`_cached_backend_token`, `_cached_backend_token_stack`,
`_cached_user_token_stack`. -/
structure AuthState where
  loginToken : Option String
  backendToken : Option String
  backendStack : Cache
  userStack : Cache
  deriving DecidableEq, Repr

/-- Result of one `AuthClient` operation: the returned response, the updated
client state, and the HTTP requests issued (in order). -/
structure StepResult where
  resp : HttpResponse
  state : AuthState
  reqs : List Endpoint
  deriving DecidableEq, Repr

namespace AuthClient

/-- Python `AuthClient._create_login_token`: one GET to `/login_token`; a raised
timeout is replaced by the synthetic 408 response.  The request is issued in
either case. -/
def createLoginToken (oracle : Oracle) : HttpResponse × List Endpoint :=
  match oracle .loginToken with
  | .timeout => (get_response_timeout, [.loginToken])
  | .ok r => (r, [.loginToken])

/-- Python `AuthClient._get_login_token`: reuse `_cached_login_token` when it passes
the validity predicate; otherwise fetch, and on a 200 cache
`get_token_from_response(response)` (an `Optional[str]`, faithfully kept as
`Option String`) and return it as `Success`; on any other status return
`Failure(response)`. -/
def getLoginToken (validExp : String → Bool) (oracle : Oracle)
    (s : AuthState) : Except HttpResponse (Option String) × AuthState × List Endpoint :=
  if is_valid_tokenO validExp s.loginToken then (.ok s.loginToken, s, [])
  else
    let fetched := createLoginToken oracle
    if fetched.1.status = 200 then
      (.ok (get_token_from_response fetched.1),
        { s with loginToken := get_token_from_response fetched.1 }, fetched.2)
    else (.error fetched.1, s, fetched.2)

/-- Miss path of `AuthClient.create_user_token` (everything after the cache
lookup): ensure a login token, then GET `/user_token/{user_id}`; on a 200
store the response's token in the user stack.  A 200 body with no `token`
field makes Python store `None`; the empty string stands in for that `None`,
with which it is interchangeable throughout the cache code (both are falsy,
always invalid, and never start the removal loop). -/
def createUserTokenMiss (validExp : String → Bool) (oracle : Oracle)
    (user_id : String) (s : AuthState) : StepResult :=
  match getLoginToken validExp oracle s with
  | (.error resp, s1, reqs) => ⟨resp, s1, reqs⟩
  | (.ok _, s1, reqs) =>
    match oracle (.userToken user_id) with
    | .timeout => ⟨get_response_timeout, s1, reqs ++ [.userToken user_id]⟩
    | .ok resp =>
      if resp.status = 200 then
        ⟨resp,
          { s1 with
            userStack := CachedTokenStack.add user_id
              ((get_token_from_response resp).getD "") s1.userStack },
          reqs ++ [.userToken user_id]⟩
      else ⟨resp, s1, reqs ++ [.userToken user_id]⟩

/-- Python `AuthClient.create_user_token`: cache lookup (the stack's `get`, which
sweeps on a truthy hit), early return of the cached token wrapped in a
synthesized 200 response, otherwise the miss path. -/
def create_user_token (validExp : String → Bool) (oracle : Oracle)
    (user_id : String) (s : AuthState) : StepResult :=
  let looked := CachedTokenStack.get validExp defaultMaxSize user_id s.userStack
  let s1 := { s with userStack := looked.2 }
  match looked.1 with
  | some t =>
    if t = "" then createUserTokenMiss validExp oracle user_id s1
    else ⟨get_reponse_from_token t, s1, []⟩
  | none => createUserTokenMiss validExp oracle user_id s1

/-- Python `AuthClient._get_cached_backend_token`: the cached backend token, gated
by the validity predicate. -/
def getCachedBackendToken (validExp : String → Bool) (s : AuthState) :
    Option String :=
  if is_valid_tokenO validExp s.backendToken then s.backendToken else none

/-- Miss path of `AuthClient._create_backend_token` (no user): ensure a
login token, then GET `/backend_token`; on a 200 cache the response's token
in `_cached_backend_token`. -/
def createBackendTokenPlainMiss (validExp : String → Bool) (oracle : Oracle)
    (s : AuthState) : StepResult :=
  match getLoginToken validExp oracle s with
  | (.error resp, s1, reqs) => ⟨resp, s1, reqs⟩
  | (.ok _, s1, reqs) =>
    match oracle .backendToken with
    | .timeout => ⟨get_response_timeout, s1, reqs ++ [.backendToken]⟩
    | .ok resp =>
      if resp.status = 200 then
        ⟨resp, { s1 with backendToken := get_token_from_response resp },
          reqs ++ [.backendToken]⟩
      else ⟨resp, s1, reqs ++ [.backendToken]⟩

/-- Python `AuthClient._create_backend_token`: truthy cached backend token is
returned wrapped in a synthesized 200 response, otherwise the miss path. -/
def createBackendTokenPlain (validExp : String → Bool) (oracle : Oracle)
    (s : AuthState) : StepResult :=
  match getCachedBackendToken validExp s with
  | some t =>
    if t = "" then createBackendTokenPlainMiss validExp oracle s
    else ⟨get_reponse_from_token t, s, []⟩
  | none => createBackendTokenPlainMiss validExp oracle s

/-- Miss path of `AuthClient._create_backend_token_with_user_id`: ensure a
login token, then GET `/backend_token/{user_id}`; on a 200 store the
response's token in the backend stack (same `Option`-to-`""` convention as
the user-token path). -/
def createBackendTokenUserMiss (validExp : String → Bool) (oracle : Oracle)
    (user_id : String) (s : AuthState) : StepResult :=
  match getLoginToken validExp oracle s with
  | (.error resp, s1, reqs) => ⟨resp, s1, reqs⟩
  | (.ok _, s1, reqs) =>
    match oracle (.backendTokenUser user_id) with
    | .timeout => ⟨get_response_timeout, s1, reqs ++ [.backendTokenUser user_id]⟩
    | .ok resp =>
      if resp.status = 200 then
        ⟨resp,
          { s1 with
            backendStack := CachedTokenStack.add user_id
              ((get_token_from_response resp).getD "") s1.backendStack },
          reqs ++ [.backendTokenUser user_id]⟩
      else ⟨resp, s1, reqs ++ [.backendTokenUser user_id]⟩

/-- Python `AuthClient._create_backend_token_with_user_id`: cache lookup in the
backend stack, early return on a truthy hit, otherwise the miss path. -/
def createBackendTokenUser (validExp : String → Bool) (oracle : Oracle)
    (user_id : String) (s : AuthState) : StepResult :=
  let looked := CachedTokenStack.get validExp defaultMaxSize user_id s.backendStack
  let s1 := { s with backendStack := looked.2 }
  match looked.1 with
  | some t =>
    if t = "" then createBackendTokenUserMiss validExp oracle user_id s1
    else ⟨get_reponse_from_token t, s1, []⟩
  | none => createBackendTokenUserMiss validExp oracle user_id s1

/-- Python `AuthClient.create_backend_token`: dispatch on the truthiness of
`user_id` (`None` and `""` both take the no-user branch). -/
def create_backend_token (validExp : String → Bool) (oracle : Oracle)
    (user_id : Option String) (s : AuthState) : StepResult :=
  match user_id with
  | some u =>
    if u = "" then createBackendTokenPlain validExp oracle s
    else createBackendTokenUser validExp oracle u s
  | none => createBackendTokenPlain validExp oracle s

end AuthClient

/-! ### auth.py / auth_errors.py -/

/-- Python `auth_errors.AuthError`: operation name, HTTP (or synthetic 408) status
code, parsed JSON error body. -/
structure AuthError where
  operation : String
  code : Nat
  message : JsonBody
  deriving DecidableEq, Repr

/-- Python `AuthError.from_response`: the body is `response.json()`, with the
`{"message": "no content"}` fallback when `.json()` raises. -/
def AuthError.from_response (operation : String) (r : HttpResponse) : AuthError :=
  ⟨operation, r.status, r.json.getD [("message", "no content")]⟩

namespace Auth

/-- Python `Auth.create_user_token`: wrap the client response, turning a 200 into
`Success(get_token_from_response(response))` and anything else into
`Failure(AuthError.from_response("create_user_token", response))`. -/
def create_user_token (validExp : String → Bool) (oracle : Oracle)
    (user_id : String) (s : AuthState) :
    Except AuthError (Option String) × AuthState × List Endpoint :=
  let r := AuthClient.create_user_token validExp oracle user_id s
  if r.resp.status = 200 then (.ok (get_token_from_response r.resp), r.state, r.reqs)
  else (.error (AuthError.from_response "create_user_token" r.resp), r.state, r.reqs)

/-- Python `Auth.create_backend_token`: as above, with the error operation name
`"create_backend_token"` plus the `" (with user)"` suffix exactly when
`user_id` is truthy. -/
def create_backend_token (validExp : String → Bool) (oracle : Oracle)
    (user_id : Option String) (s : AuthState) :
    Except AuthError (Option String) × AuthState × List Endpoint :=
  let r := AuthClient.create_backend_token validExp oracle user_id s
  if r.resp.status = 200 then (.ok (get_token_from_response r.resp), r.state, r.reqs)
  else
    let suffix := match user_id with
      | some u => if u = "" then "" else " (with user)"
      | none => ""
    (.error (AuthError.from_response ("create_backend_token" ++ suffix) r.resp),
      r.state, r.reqs)

end Auth

/-- Number of requests to `/login_token` in a request log. -/
def countLogin (reqs : List Endpoint) : Nat :=
  reqs.countP (fun e => decide (e = .loginToken))

instance {ε α : Type} [DecidableEq ε] [DecidableEq α] : DecidableEq (Except ε α) :=
  fun a b =>
    match a, b with
    | .ok x, .ok y =>
      if h : x = y then isTrue (by rw [h])
      else isFalse (fun hc => h (Except.ok.inj hc))
    | .error x, .error y =>
      if h : x = y then isTrue (by rw [h])
      else isFalse (fun hc => h (Except.error.inj hc))
    | .ok _, .error _ => isFalse (fun hc => Except.noConfusion hc)
    | .error _, .ok _ => isFalse (fun hc => Except.noConfusion hc)

/-- A transport oracle on which every request times out. -/
def allTimeout : Oracle := fun _ => .timeout

/-- A freshly constructed `AuthClient`: no cached tokens, empty stacks. -/
def emptyState : AuthState := ⟨none, none, [], []⟩

/-! ### General lemmas about the embedded operations -/

theorem is_valid_tokenB_ne_empty {validExp : String → Bool} {t : String}
    (h : is_valid_tokenB validExp t = true) : t ≠ "" := by
  have := (Bool.and_eq_true _ _).mp h
  simpa using this.1

theorem find?_append_of_false {α : Type} (p : α → Bool) (l₁ l₂ : List α)
    (h : ∀ a ∈ l₁, p a = false) : (l₁ ++ l₂).find? p = l₂.find? p := by
  induction l₁ with
  | nil => simp
  | cons a l ih =>
    rw [List.cons_append, List.find?_cons_of_neg, ih]
    · exact fun x hx => h x (List.mem_cons_of_mem a hx)
    · simp [h a (List.mem_cons_self a l)]

theorem dictGet_eq_none {k : String} {d : Cache}
    (h : ∀ e ∈ d, e.1 ≠ k) : dictGet k d = none := by
  induction d with
  | nil => rfl
  | cons e rest ih =>
    rw [dictGet, if_neg (h e (List.mem_cons_self e rest))]
    exact ih fun x hx => h x (List.mem_cons_of_mem e hx)

theorem dictGet_append_of_none {k : String} {d₁ d₂ : Cache}
    (h : ∀ e ∈ d₁, e.1 ≠ k) : dictGet k (d₁ ++ d₂) = dictGet k d₂ := by
  induction d₁ with
  | nil => rfl
  | cons e rest ih =>
    rw [List.cons_append, dictGet, if_neg (h e (List.mem_cons_self e rest))]
    exact ih fun x hx => h x (List.mem_cons_of_mem e hx)

theorem dictGet_of_mem_nodup {k t : String} {d : Cache}
    (hmem : (k, t) ∈ d) (hnodup : (d.map Prod.fst).Nodup) :
    dictGet k d = some t := by
  induction d with
  | nil => cases hmem
  | cons e rest ih =>
    rw [List.map_cons, List.nodup_cons] at hnodup
    rcases List.mem_cons.mp hmem with h | h
    · rw [dictGet, if_pos (by rw [← h]), ← h]
    · have hkrest : k ∈ rest.map Prod.fst := List.mem_map.mpr ⟨(k, t), h, rfl⟩
      have he : e.1 ≠ k := fun hek => hnodup.1 (hek ▸ hkrest)
      rw [dictGet, if_neg he]
      exact ih h hnodup.2

theorem dictSet_append_of_none {k v : String} {d : Cache}
    (h : ∀ e ∈ d, e.1 ≠ k) : dictSet k v d = d ++ [(k, v)] := by
  induction d with
  | nil => rfl
  | cons e rest ih =>
    rw [dictSet, if_neg (h e (List.mem_cons_self e rest)), List.cons_append,
      ih fun x hx => h x (List.mem_cons_of_mem e hx)]

namespace CachedTokenStack

theorem latestExpiredToken_decomp (validExp : String → Bool)
    (pre : Cache) (kl v : String) (suf : Cache)
    (hsuf : ∀ e ∈ suf, is_valid_tokenB validExp e.2 = true)
    (hv : is_valid_tokenB validExp v = false) :
    latestExpiredToken validExp (pre ++ (kl, v) :: suf) = some v := by
  unfold latestExpiredToken
  rw [List.reverse_append, List.reverse_cons, List.append_assoc,
    List.singleton_append, List.map_append, List.map_cons]
  rw [find?_append_of_false _ _ _ (by
    intro a ha
    rw [List.mem_map] at ha
    obtain ⟨e, he, rfl⟩ := ha
    simp [hsuf e (List.mem_reverse.mp he)])]
  rw [List.find?_cons_of_pos _ (by simp [hv])]

theorem popUntil_decomp (pre : Cache) (kl v : String) (suf : Cache)
    (hne : ∀ e ∈ pre, e.2 ≠ v) :
    popUntil v (pre ++ (kl, v) :: suf) = suf := by
  induction pre with
  | nil => simp [popUntil]
  | cons e rest ih =>
    rw [List.cons_append, popUntil, if_neg (hne e (List.mem_cons_self e rest))]
    exact ih fun x hx => hne x (List.mem_cons_of_mem e hx)

theorem clearExpiredTokens_decomp (validExp : String → Bool)
    (pre : Cache) (kl v : String) (suf : Cache)
    (hsuf : ∀ e ∈ suf, is_valid_tokenB validExp e.2 = true)
    (hv : is_valid_tokenB validExp v = false) (hvne : v ≠ "")
    (hne : ∀ e ∈ pre, e.2 ≠ v) :
    clearExpiredTokens validExp (pre ++ (kl, v) :: suf) = suf := by
  unfold clearExpiredTokens
  rw [if_pos (by simp), latestExpiredToken_decomp validExp pre kl v suf hsuf hv]
  show (if v = "" then pre ++ (kl, v) :: suf else popUntil v (pre ++ (kl, v) :: suf)) = suf
  rw [if_neg hvne, popUntil_decomp pre kl v suf hne]

theorem clearExpiredTokens_of_all_valid (validExp : String → Bool) (d : Cache)
    (h : ∀ e ∈ d, is_valid_tokenB validExp e.2 = true) :
    clearExpiredTokens validExp d = d := by
  have hnone : latestExpiredToken validExp d = none := by
    unfold latestExpiredToken
    rw [List.find?_eq_none]
    intro a ha
    rw [List.mem_map] at ha
    obtain ⟨e, he, rfl⟩ := ha
    simp [h e (List.mem_reverse.mp he)]
  unfold clearExpiredTokens
  rw [hnone]
  split <;> rfl

theorem clearIfMaxSizeExceeded_length_le (maxSize : Nat) (d : Cache) :
    (clearIfMaxSizeExceeded maxSize d).length ≤ maxSize := by
  unfold clearIfMaxSizeExceeded
  split
  · rw [List.length_drop]; omega
  · omega

theorem clearIfMaxSizeExceeded_of_le {maxSize : Nat} {d : Cache}
    (h : d.length ≤ maxSize) : clearIfMaxSizeExceeded maxSize d = d := by
  unfold clearIfMaxSizeExceeded
  rw [if_neg (by omega)]

theorem popUntil_isSuffix (v : String) (d : Cache) : (popUntil v d).IsSuffix d := by
  induction d with
  | nil => exact List.suffix_refl []
  | cons e rest ih =>
    rw [popUntil]
    split
    · exact List.suffix_cons e rest
    · exact ih.trans (List.suffix_cons e rest)

theorem popUntil_eq_dropWhile (v : String) (d : Cache) :
    popUntil v d = (d.dropWhile (fun e => e.2 != v)).drop 1 := by
  induction d with
  | nil => rfl
  | cons e rest ih =>
    rw [popUntil, List.dropWhile_cons]
    by_cases h : e.2 = v
    · simp [h]
    · simp only [if_neg h, ih]
      rw [if_pos (by simp [h])]

end CachedTokenStack

/-- Linking the raising translation of `is_valid_token` with the boolean
abstraction the cache and client layers use: for a frozen clock, a token
passes `is_valid_token` with the default 60-second margin (without raising)
exactly when the boolean predicate derived from the same decode oracle
accepts it. -/
theorem is_valid_token_ok_iff (decode : String → Option (List (String × Int)))
    (now : Int) (tok : Option String) :
    is_valid_token decode now 60 tok = .ok true
      ↔ is_valid_tokenO (validExpOf decode now) tok = true := by
  match tok with
  | none => simp [is_valid_token, is_valid_tokenO]
  | some t =>
    by_cases ht : t = ""
    · subst ht
      simp [is_valid_token, is_valid_tokenO, is_valid_tokenB]
    · simp only [is_valid_token, if_neg ht, is_valid_tokenO, is_valid_tokenB,
        validExpOf]
      match hdec : decode t with
      | none => simp [ht]
      | some claims =>
        match hfind : claims.find? (fun c => c.1 == "exp") with
        | none => simp [hfind, ht]
        | some c => simp [hfind, ht, bne_iff_ne]

theorem dictGet_mem {k t : String} {d : Cache} (h : dictGet k d = some t) :
    (k, t) ∈ d := by
  induction d with
  | nil => cases h
  | cons e rest ih =>
    obtain ⟨a, b⟩ := e
    rw [dictGet] at h
    by_cases he : a = k
    · rw [if_pos he] at h
      have hb : b = t := Option.some.inj h
      exact List.mem_cons.mpr (Or.inl (by rw [he, hb]))
    · rw [if_neg he] at h
      exact List.mem_cons_of_mem _ (ih h)

theorem CachedTokenStack.popUntil_isSuffix_middle (v : String)
    (e : String × String) (he : e.2 = v) (d₁ d₂ : Cache) :
    d₂.IsSuffix (CachedTokenStack.popUntil v (d₁ ++ e :: d₂)) := by
  induction d₁ with
  | nil =>
    rw [List.nil_append, CachedTokenStack.popUntil, if_pos he]
  | cons x rest ih =>
    rw [List.cons_append, CachedTokenStack.popUntil]
    by_cases hx : x.2 = v
    · rw [if_pos hx]
      exact (List.suffix_cons e d₂).trans (List.suffix_append rest (e :: d₂))
    · rw [if_neg hx]
      exact ih

/-! ### Claim C2: capacity bound after a `get` -/

/-- C2 (corrected): the capacity bound `len ≤ maxSize` holds after any `get`
that finds a truthy (nonempty) token — the sweeps run only on such a hit, so
the original claim's "on any key" fails for a missing key
(see `capacity_bound_counterexample`). -/
theorem capacity_bound_after_hit (validExp : String → Bool) (maxSize : Nat)
    (k t : String) (d : Cache)
    (hfound : (CachedTokenStack.get validExp maxSize k d).1 = some t)
    (ht : t ≠ "") :
    (CachedTokenStack.get validExp maxSize k d).2.length ≤ maxSize := by
  unfold CachedTokenStack.get at hfound ⊢
  cases hd : dictGet k d with
  | none =>
    rw [hd] at hfound
    exact absurd hfound (by simp)
  | some t' =>
    rw [hd] at hfound
    have hfound' : (if t' = "" then (some t', d)
        else (some t', CachedTokenStack.clearIfMaxSizeExceeded maxSize
          (CachedTokenStack.clearExpiredTokens validExp d))).1 = some t := hfound
    show (if t' = "" then (some t', d)
        else (some t', CachedTokenStack.clearIfMaxSizeExceeded maxSize
          (CachedTokenStack.clearExpiredTokens validExp d))).2.length ≤ maxSize
    by_cases h0 : t' = ""
    · rw [if_pos h0] at hfound'
      cases hfound'
      exact absurd h0 ht
    · rw [if_neg h0]
      exact CachedTokenStack.clearIfMaxSizeExceeded_length_le maxSize _

/-- C2 counterexample: with `maxSize = 1`, two `add`s followed by a `get` on
a missing key leave the cache at size 2 — the claimed bound `len ≤ maxSize`
fails for a `get` on "any key". -/
theorem capacity_bound_counterexample :
    (CachedTokenStack.get (fun _ => true) 1 "c"
      (CachedTokenStack.add "b" "y" (CachedTokenStack.add "a" "x" []))).2.length = 2
    ∧ ¬ ((CachedTokenStack.get (fun _ => true) 1 "c"
      (CachedTokenStack.add "b" "y" (CachedTokenStack.add "a" "x" []))).2.length ≤ 1) := by
  decide

/-- Witness for C2's corrected statement: a hit on key `"a"` in an oversize
`maxSize = 1` cache trims it back to the bound. -/
theorem capacity_bound_after_hit_witness :
    (CachedTokenStack.get (fun _ => true) 1 "a" [("a", "x"), ("b", "y")]).1 = some "x"
    ∧ ("x" : String) ≠ ""
    ∧ (CachedTokenStack.get (fun _ => true) 1 "a" [("a", "x"), ("b", "y")]).2.length ≤ 1 :=
  ⟨by decide, by decide,
    capacity_bound_after_hit (fun _ => true) 1 "a" "x" [("a", "x"), ("b", "y")]
      (by decide) (by decide)⟩

/-! ### Claim C5: `add` on an existing key -/

/-- C5 (corrected): `add` on an existing key overwrites the value in place;
the entry keeps its original position in insertion order (a Python dict
assignment does not move the key to the newest end). -/
theorem add_overwrites_in_place (k v' v : String) (d₁ d₂ : Cache)
    (hk : ∀ e ∈ d₁, e.1 ≠ k) :
    CachedTokenStack.add k v' (d₁ ++ (k, v) :: d₂) = d₁ ++ (k, v') :: d₂ := by
  unfold CachedTokenStack.add
  induction d₁ with
  | nil => simp [dictSet]
  | cons e rest ih =>
    rw [List.cons_append, dictSet, if_neg (hk e (List.mem_cons_self e rest)),
      List.cons_append, ih fun x hx => hk x (List.mem_cons_of_mem e hx)]

/-- C5 counterexample: re-adding key `"a"` leaves its entry first in
insertion order, refuting "re-insertion moves the entry to the newest
end". -/
theorem add_counterexample :
    CachedTokenStack.add "a" "t3"
        (CachedTokenStack.add "b" "t2" (CachedTokenStack.add "a" "t1" []))
      = [("a", "t3"), ("b", "t2")]
    ∧ CachedTokenStack.add "a" "t3"
        (CachedTokenStack.add "b" "t2" (CachedTokenStack.add "a" "t1" []))
      ≠ [("b", "t2"), ("a", "t3")] := by
  decide

/-- Witness for C5's corrected statement at a concrete cache. -/
theorem add_overwrites_in_place_witness :
    (∀ e ∈ ([("x", "t0")] : Cache), e.1 ≠ "a")
    ∧ CachedTokenStack.add "a" "t3" ([("x", "t0")] ++ ("a", "t1") :: [("b", "t2")])
      = [("x", "t0")] ++ ("a", "t3") :: [("b", "t2")] :=
  ⟨by decide, add_overwrites_in_place "a" "t3" "t1" [("x", "t0")] [("b", "t2")]
    (by decide)⟩

/-! ### Claim C4: totality of the validity predicate -/

/-- C4 (corrected): the behaviour of `is_valid_token` on every input class —
absent (`None`) and empty tokens yield `False` without raising; a token
whose decoded claims carry `exp` yields `exp > now - 60`; but a malformed
token (one `jwt.decode` rejects) raises `DecodeError`, and a decodable token
without an `exp` claim raises `KeyError`, so the predicate is not total. -/
theorem is_valid_token_behaviour (decode : String → Option (List (String × Int)))
    (now : Int) :
    is_valid_token decode now 60 none = .ok false
    ∧ is_valid_token decode now 60 (some "") = .ok false
    ∧ (∀ t, t ≠ "" → decode t = none →
        is_valid_token decode now 60 (some t) = .error .decodeError)
    ∧ (∀ t claims, t ≠ "" → decode t = some claims →
        claims.find? (fun c => c.1 == "exp") = none →
        is_valid_token decode now 60 (some t) = .error .missingExpClaim)
    ∧ (∀ t claims c, t ≠ "" → decode t = some claims →
        claims.find? (fun c => c.1 == "exp") = some c →
        is_valid_token decode now 60 (some t) = .ok (decide (c.2 > now - 60))) := by
  refine ⟨rfl, by simp [is_valid_token], ?_, ?_, ?_⟩
  · intro t ht hdec
    simp [is_valid_token, ht, hdec]
  · intro t claims ht hdec hfind
    simp [is_valid_token, ht, hdec, hfind]
  · intro t claims c ht hdec hfind
    simp [is_valid_token, ht, hdec, hfind]

/-- A concrete decode oracle: one well-formed token, everything else
malformed. -/
def decodeEx : String → Option (List (String × Int)) := fun t =>
  if t = "goodtoken" then some [("exp", 1000)] else none

/-- C4 counterexample: on the malformed token `"malformed"` the predicate
raises (`DecodeError`) instead of returning invalid. -/
theorem is_valid_token_raises_on_malformed :
    is_valid_token decodeEx 0 60 (some "malformed") = .error .decodeError
    ∧ is_valid_token decodeEx 0 60 (some "malformed") ≠ .ok false
    ∧ is_valid_token decodeEx 0 60 (some "malformed") ≠ .ok true := by
  have h : is_valid_token decodeEx 0 60 (some "malformed") = .error .decodeError := by
    rfl
  refine ⟨h, ?_, ?_⟩ <;> rw [h] <;> exact fun hc => Except.noConfusion hc

/-- Witness for C4's corrected statement: each branch evaluated at the
concrete decode oracle. -/
theorem is_valid_token_behaviour_witness :
    is_valid_token decodeEx 0 60 none = .ok false
    ∧ is_valid_token decodeEx 0 60 (some "") = .ok false
    ∧ is_valid_token decodeEx 0 60 (some "bad") = .error .decodeError
    ∧ is_valid_token decodeEx 0 60 (some "goodtoken") = .ok true :=
  ⟨(is_valid_token_behaviour decodeEx 0).1,
    (is_valid_token_behaviour decodeEx 0).2.1,
    (is_valid_token_behaviour decodeEx 0).2.2.1 "bad" (by decide) (by decide),
    by
      have := (is_valid_token_behaviour decodeEx 0).2.2.2.2 "goodtoken"
        [("exp", 1000)] ("exp", 1000) (by decide) (by decide) (by decide)
      exact this.trans (by rfl)⟩

/-! ### Claim C3: exactness of the expiry sweep -/

/-- C3 (corrected): with an expired prefix whose token values are not
repeated at the latest-expired position (and the valid part within the
capacity bound), a `get` on a key holding a valid token removes exactly the
expired prefix and leaves the valid entries intact; when nothing is expired,
nothing is removed.  Without the no-repetition condition the sweep can stop
early (see the counterexample). -/
theorem expiry_sweep_exactness (validExp : String → Bool) (maxSize : Nat) :
    (∀ (pre : Cache) (kl v : String) (suf : Cache) (kg tg : String),
      (∀ e ∈ pre, is_valid_tokenB validExp e.2 = false) →
      is_valid_tokenB validExp v = false →
      v ≠ "" →
      (∀ e ∈ pre, e.2 ≠ v) →
      (∀ e ∈ suf, is_valid_tokenB validExp e.2 = true) →
      suf.length ≤ maxSize →
      dictGet kg (pre ++ (kl, v) :: suf) = some tg →
      is_valid_tokenB validExp tg = true →
      CachedTokenStack.get validExp maxSize kg (pre ++ (kl, v) :: suf) = (some tg, suf))
    ∧ (∀ (d : Cache) (kg tg : String),
      (∀ e ∈ d, is_valid_tokenB validExp e.2 = true) →
      d.length ≤ maxSize →
      dictGet kg d = some tg →
      CachedTokenStack.get validExp maxSize kg d = (some tg, d)) := by
  constructor
  · intro pre kl v suf kg tg hpre hv hvne hnodupv hsuf hcap hget htg
    have htgne : tg ≠ "" := is_valid_tokenB_ne_empty htg
    unfold CachedTokenStack.get
    rw [hget]
    show (if tg = "" then (some tg, pre ++ (kl, v) :: suf)
        else (some tg, CachedTokenStack.clearIfMaxSizeExceeded maxSize
          (CachedTokenStack.clearExpiredTokens validExp (pre ++ (kl, v) :: suf))))
      = (some tg, suf)
    rw [if_neg htgne,
      CachedTokenStack.clearExpiredTokens_decomp validExp pre kl v suf hsuf hv hvne hnodupv,
      CachedTokenStack.clearIfMaxSizeExceeded_of_le hcap]
  · intro d kg tg hall hlen hget
    have htg := hall (kg, tg) (dictGet_mem hget)
    have htgne : tg ≠ "" := is_valid_tokenB_ne_empty htg
    unfold CachedTokenStack.get
    rw [hget]
    show (if tg = "" then (some tg, d)
        else (some tg, CachedTokenStack.clearIfMaxSizeExceeded maxSize
          (CachedTokenStack.clearExpiredTokens validExp d)))
      = (some tg, d)
    rw [if_neg htgne, CachedTokenStack.clearExpiredTokens_of_all_valid validExp d hall,
      CachedTokenStack.clearIfMaxSizeExceeded_of_le hlen]

/-- C3 counterexample: the expired prefix holds the duplicate value `"e1"`
at positions 0 and 1; the removal loop stops after popping position 0 (its
value already equals the latest-inserted expired value), so the `get` does
not remove the whole expired prefix [0, 2). -/
theorem expiry_sweep_exactness_counterexample :
    CachedTokenStack.get (fun t => t == "v1") 5000 "c"
        [("a", "e1"), ("b", "e1"), ("c", "v1")]
      = (some "v1", [("b", "e1"), ("c", "v1")])
    ∧ ([("b", "e1"), ("c", "v1")] : Cache) ≠ [("c", "v1")] := by
  decide

/-- Witness for C3's corrected statement: a two-entry expired prefix with
distinct values is removed exactly, the valid entry survives. -/
theorem expiry_sweep_exactness_witness :
    CachedTokenStack.get (fun t => t == "v1") 5000 "c"
        ([("a", "e1")] ++ ("b", "e2") :: [("c", "v1")])
      = (some "v1", [("c", "v1")]) :=
  (expiry_sweep_exactness (fun t => t == "v1") 5000).1 [("a", "e1")] "b" "e2"
    [("c", "v1")] "c" "v1" (by decide) (by decide) (by decide) (by decide)
    (by decide) (by decide) (by decide) (by decide)

/-! ### Claim C10: structure of the expiry sweep -/

/-- C10 (corrected): the expiry sweep removes entries only from the oldest
end (its result is a suffix of the input); when the latest-inserted expired
value `v` is a nonempty string, the result is exactly the input with the
prefix up to and including the first entry holding `v` removed; every entry
inserted after the latest-inserted expired entry survives; and when no
stored token is expired nothing is removed.  The nonemptiness proviso is
forced by the source's truthiness test on the found expired value (see the
counterexample). -/
theorem expiry_sweep_oldest_first (validExp : String → Bool) :
    (∀ d : Cache, (CachedTokenStack.clearExpiredTokens validExp d).IsSuffix d)
    ∧ (∀ (d : Cache) (v : String),
        CachedTokenStack.latestExpiredToken validExp d = some v → v ≠ "" →
        CachedTokenStack.clearExpiredTokens validExp d
          = (d.dropWhile (fun e => e.2 != v)).drop 1)
    ∧ (∀ (d₁ : Cache) (e : String × String) (d₂ : Cache),
        is_valid_tokenB validExp e.2 = false → e.2 ≠ "" →
        (∀ x ∈ d₂, is_valid_tokenB validExp x.2 = true) →
        d₂.IsSuffix (CachedTokenStack.clearExpiredTokens validExp (d₁ ++ e :: d₂)))
    ∧ (∀ d : Cache, (∀ x ∈ d, is_valid_tokenB validExp x.2 = true) →
        CachedTokenStack.clearExpiredTokens validExp d = d) := by
  refine ⟨?_, ?_, ?_, ?_⟩
  · intro d
    unfold CachedTokenStack.clearExpiredTokens
    by_cases hd : 0 < d.length
    · rw [if_pos hd]
      cases hm : CachedTokenStack.latestExpiredToken validExp d with
      | none => exact List.suffix_refl d
      | some v =>
        show (if v = "" then d else CachedTokenStack.popUntil v d).IsSuffix d
        by_cases hv : v = ""
        · rw [if_pos hv]
        · rw [if_neg hv]
          exact CachedTokenStack.popUntil_isSuffix v d
    · rw [if_neg hd]
  · intro d v hm hv
    have hd : 0 < d.length := by
      cases d with
      | nil => exact absurd hm (by simp [CachedTokenStack.latestExpiredToken])
      | cons x rest => simp
    unfold CachedTokenStack.clearExpiredTokens
    rw [if_pos hd, hm]
    show (if v = "" then d else CachedTokenStack.popUntil v d)
      = (d.dropWhile (fun e => e.2 != v)).drop 1
    rw [if_neg hv, CachedTokenStack.popUntil_eq_dropWhile]
  · intro d₁ e d₂ hinv hne hval
    have hm := CachedTokenStack.latestExpiredToken_decomp validExp d₁ e.1 e.2 d₂
      hval hinv
    rw [Prod.mk.eta] at hm
    unfold CachedTokenStack.clearExpiredTokens
    rw [if_pos (by simp), hm]
    show d₂.IsSuffix (if e.2 = "" then d₁ ++ e :: d₂
        else CachedTokenStack.popUntil e.2 (d₁ ++ e :: d₂))
    rw [if_neg hne]
    exact CachedTokenStack.popUntil_isSuffix_middle e.2 e rfl d₁ d₂
  · exact CachedTokenStack.clearExpiredTokens_of_all_valid validExp

/-- C10 counterexample: the latest-inserted expired value is the empty
string, so the truthiness test skips the removal loop entirely, though the
claimed behaviour would remove the first (oldest) entry. -/
theorem expiry_sweep_oldest_first_counterexample :
    CachedTokenStack.latestExpiredToken (fun t => t == "w") [("a", ""), ("b", "w")]
      = some ""
    ∧ CachedTokenStack.clearExpiredTokens (fun t => t == "w") [("a", ""), ("b", "w")]
      = [("a", ""), ("b", "w")]
    ∧ (([("a", ""), ("b", "w")] : Cache).dropWhile (fun e => e.2 != "")).drop 1
      = [("b", "w")]
    ∧ ([("a", ""), ("b", "w")] : Cache) ≠ [("b", "w")] := by
  decide

/-- Witness for C10's corrected statement: the dropWhile characterization at
a concrete cache with a nonempty latest expired value, and the no-op case on
an all-valid cache. -/
theorem expiry_sweep_oldest_first_witness :
    CachedTokenStack.clearExpiredTokens (fun t => t == "w") [("a", "x"), ("b", "w")]
      = (([("a", "x"), ("b", "w")] : Cache).dropWhile (fun e => e.2 != "x")).drop 1
    ∧ CachedTokenStack.clearExpiredTokens (fun t => t == "w") [("b", "w")]
      = [("b", "w")] :=
  ⟨(expiry_sweep_oldest_first (fun t => t == "w")).2.1 [("a", "x"), ("b", "w")] "x"
      (by decide) (by decide),
    (expiry_sweep_oldest_first (fun t => t == "w")).2.2.2 [("b", "w")] (by decide)⟩

/-! ### Claim C6: cache hit avoids the network -/

/-- C6 (confirmed): when the stack holds a valid (non-expired) token for
`K`, `create_user_token(K)` and `create_backend_token(K)` issue no HTTP
request and return a 200 response whose `token` field is exactly the cached
token.  (`K ≠ ""` on the backend path because `create_backend_token`
dispatches on the truthiness of `user_id`; a key `""` can never enter the
backend stack through the public API.) -/
theorem cache_hit_avoids_network (validExp : String → Bool) (oracle : Oracle)
    (K : String) (s : AuthState) :
    (∀ t, dictGet K s.userStack = some t → is_valid_tokenB validExp t = true →
      (AuthClient.create_user_token validExp oracle K s).resp.status = 200
      ∧ get_token_from_response
          (AuthClient.create_user_token validExp oracle K s).resp = some t
      ∧ (AuthClient.create_user_token validExp oracle K s).reqs = [])
    ∧ (∀ t, K ≠ "" → dictGet K s.backendStack = some t →
      is_valid_tokenB validExp t = true →
      (AuthClient.create_backend_token validExp oracle (some K) s).resp.status = 200
      ∧ get_token_from_response
          (AuthClient.create_backend_token validExp oracle (some K) s).resp = some t
      ∧ (AuthClient.create_backend_token validExp oracle (some K) s).reqs = []) := by
  constructor
  · intro t hget htv
    have htne : t ≠ "" := is_valid_tokenB_ne_empty htv
    refine ⟨?_, ?_, ?_⟩ <;>
      simp [AuthClient.create_user_token, CachedTokenStack.get, hget, htne,
        get_reponse_from_token, get_token_from_response]
  · intro t hK hget htv
    have htne : t ≠ "" := is_valid_tokenB_ne_empty htv
    refine ⟨?_, ?_, ?_⟩ <;>
      simp [AuthClient.create_backend_token, AuthClient.createBackendTokenUser,
        CachedTokenStack.get, hget, hK, htne, get_reponse_from_token,
        get_token_from_response]

/-- Witness for C6 at a concrete state: user and backend stacks each hold a
valid token for `"u"`; neither call issues a request even on an
always-timing-out transport. -/
theorem cache_hit_avoids_network_witness :
    ((AuthClient.create_user_token (fun _ => true) allTimeout "u"
        ⟨none, none, [("u", "tokB")], [("u", "tokU")]⟩).resp.status = 200
    ∧ get_token_from_response (AuthClient.create_user_token (fun _ => true)
        allTimeout "u" ⟨none, none, [("u", "tokB")], [("u", "tokU")]⟩).resp
        = some "tokU"
    ∧ (AuthClient.create_user_token (fun _ => true) allTimeout "u"
        ⟨none, none, [("u", "tokB")], [("u", "tokU")]⟩).reqs = [])
    ∧ ((AuthClient.create_backend_token (fun _ => true) allTimeout (some "u")
        ⟨none, none, [("u", "tokB")], [("u", "tokU")]⟩).resp.status = 200
    ∧ get_token_from_response (AuthClient.create_backend_token (fun _ => true)
        allTimeout (some "u") ⟨none, none, [("u", "tokB")], [("u", "tokU")]⟩).resp
        = some "tokB"
    ∧ (AuthClient.create_backend_token (fun _ => true) allTimeout (some "u")
        ⟨none, none, [("u", "tokB")], [("u", "tokU")]⟩).reqs = []) :=
  ⟨(cache_hit_avoids_network (fun _ => true) allTimeout "u"
      ⟨none, none, [("u", "tokB")], [("u", "tokU")]⟩).1 "tokU" (by decide) (by decide),
    (cache_hit_avoids_network (fun _ => true) allTimeout "u"
      ⟨none, none, [("u", "tokB")], [("u", "tokU")]⟩).2 "tokB" (by decide)
      (by decide) (by decide)⟩

/-! ### Claim C9: distinct operation names in errors -/

/-- C9 (confirmed): a failing `create_backend_token` with a (truthy) user id
reports operation `"create_backend_token (with user)"`, without a user id it
reports `"create_backend_token"`, and the two names are distinct. -/
theorem backend_token_error_operation_names (validExp : String → Bool)
    (oracle : Oracle) (u : String) (hu : u ≠ "") (s s2 : AuthState) :
    (∀ e : AuthError,
      (Auth.create_backend_token validExp oracle (some u) s).1 = .error e →
      e.operation = "create_backend_token (with user)")
    ∧ (∀ e : AuthError,
      (Auth.create_backend_token validExp oracle none s2).1 = .error e →
      e.operation = "create_backend_token")
    ∧ ("create_backend_token (with user)" : String) ≠ "create_backend_token" := by
  refine ⟨?_, ?_, by decide⟩
  · intro e he
    simp only [Auth.create_backend_token] at he
    split at he
    · exact absurd he (by simp)
    · simp only [Except.error.injEq] at he
      rw [← he]
      simp [AuthError.from_response, hu]
  · intro e he
    simp only [Auth.create_backend_token] at he
    split at he
    · exact absurd he (by simp)
    · simp only [Except.error.injEq] at he
      rw [← he]
      simp [AuthError.from_response]

/-- Witness for C9 on a concrete failing pair of calls (transport always
times out, so both calls fail). -/
theorem backend_token_error_operation_names_witness :
    ("u2" : String) ≠ ""
    ∧ (Auth.create_backend_token (fun _ => false) allTimeout (some "u2")
        emptyState).1
      = .error ⟨"create_backend_token (with user)", 408,
          [("message", "Request timed out")]⟩
    ∧ (⟨"create_backend_token (with user)", 408,
          [("message", "Request timed out")]⟩ : AuthError).operation
      = "create_backend_token (with user)"
    ∧ (Auth.create_backend_token (fun _ => false) allTimeout none emptyState).1
      = .error ⟨"create_backend_token", 408, [("message", "Request timed out")]⟩
    ∧ (⟨"create_backend_token", 408,
          [("message", "Request timed out")]⟩ : AuthError).operation
      = "create_backend_token" :=
  ⟨by decide, by decide,
    (backend_token_error_operation_names (fun _ => false) allTimeout "u2"
      (by decide) emptyState emptyState).1
      ⟨"create_backend_token (with user)", 408, [("message", "Request timed out")]⟩
      (by decide),
    by decide,
    (backend_token_error_operation_names (fun _ => false) allTimeout "u2"
      (by decide) emptyState emptyState).2.1
      ⟨"create_backend_token", 408, [("message", "Request timed out")]⟩
      (by decide)⟩

/-! ### Claim C8: timeout normalization -/

/-- C8 (confirmed): a transport timeout on any of the three endpoints —
`/login_token` (reached while ensuring a login token), `/user_token/{id}`,
`/backend_token`, `/backend_token/{id}` — surfaces as a typed `AuthError`
with code 408 and the message body `{"message": "Request timed out"}`; the
embedding is total, so no transport exception escapes. -/
theorem timeout_normalization (validExp : String → Bool) (oracle : Oracle)
    (K : String) (s : AuthState) :
    (dictGet K s.userStack = none →
      is_valid_tokenO validExp s.loginToken = false →
      oracle .loginToken = .timeout →
      (Auth.create_user_token validExp oracle K s).1
        = .error ⟨"create_user_token", 408, [("message", "Request timed out")]⟩)
    ∧ (dictGet K s.userStack = none →
      is_valid_tokenO validExp s.loginToken = true →
      oracle (.userToken K) = .timeout →
      (Auth.create_user_token validExp oracle K s).1
        = .error ⟨"create_user_token", 408, [("message", "Request timed out")]⟩)
    ∧ (is_valid_tokenO validExp s.backendToken = false →
      is_valid_tokenO validExp s.loginToken = true →
      oracle .backendToken = .timeout →
      (Auth.create_backend_token validExp oracle none s).1
        = .error ⟨"create_backend_token", 408, [("message", "Request timed out")]⟩)
    ∧ (K ≠ "" → dictGet K s.backendStack = none →
      is_valid_tokenO validExp s.loginToken = true →
      oracle (.backendTokenUser K) = .timeout →
      (Auth.create_backend_token validExp oracle (some K) s).1
        = .error ⟨"create_backend_token (with user)", 408,
            [("message", "Request timed out")]⟩) := by
  refine ⟨?_, ?_, ?_, ?_⟩
  · intro h1 h2 h3
    simp [Auth.create_user_token, AuthClient.create_user_token,
      CachedTokenStack.get, h1, AuthClient.createUserTokenMiss,
      AuthClient.getLoginToken, h2, AuthClient.createLoginToken, h3,
      get_response_timeout, AuthError.from_response]
  · intro h1 h2 h3
    simp [Auth.create_user_token, AuthClient.create_user_token,
      CachedTokenStack.get, h1, AuthClient.createUserTokenMiss,
      AuthClient.getLoginToken, h2, h3,
      get_response_timeout, AuthError.from_response]
  · intro h1 h2 h3
    simp [Auth.create_backend_token, AuthClient.create_backend_token,
      AuthClient.createBackendTokenPlain, AuthClient.getCachedBackendToken, h1,
      AuthClient.createBackendTokenPlainMiss, AuthClient.getLoginToken, h2, h3,
      get_response_timeout, AuthError.from_response]
  · intro hK h1 h2 h3
    simp [Auth.create_backend_token, AuthClient.create_backend_token, hK,
      AuthClient.createBackendTokenUser, CachedTokenStack.get, h1,
      AuthClient.createBackendTokenUserMiss, AuthClient.getLoginToken, h2, h3,
      get_response_timeout, AuthError.from_response]

/-- Witness for C8: each of the four timeout paths evaluated concretely (an
empty client for the login-timeout path, a client holding a valid login
token `"L"` for the three mint-endpoint paths). -/
theorem timeout_normalization_witness :
    (Auth.create_user_token (fun t => t == "L") allTimeout "u" emptyState).1
      = .error ⟨"create_user_token", 408, [("message", "Request timed out")]⟩
    ∧ (Auth.create_user_token (fun t => t == "L") allTimeout "u"
        ⟨some "L", none, [], []⟩).1
      = .error ⟨"create_user_token", 408, [("message", "Request timed out")]⟩
    ∧ (Auth.create_backend_token (fun t => t == "L") allTimeout none
        ⟨some "L", none, [], []⟩).1
      = .error ⟨"create_backend_token", 408, [("message", "Request timed out")]⟩
    ∧ (Auth.create_backend_token (fun t => t == "L") allTimeout (some "u")
        ⟨some "L", none, [], []⟩).1
      = .error ⟨"create_backend_token (with user)", 408,
          [("message", "Request timed out")]⟩ :=
  ⟨(timeout_normalization (fun t => t == "L") allTimeout "u" emptyState).1
      (by decide) (by decide) rfl,
    (timeout_normalization (fun t => t == "L") allTimeout "u"
      ⟨some "L", none, [], []⟩).2.1 (by decide) (by decide) rfl,
    (timeout_normalization (fun t => t == "L") allTimeout "u"
      ⟨some "L", none, [], []⟩).2.2.1 (by decide) (by decide) rfl,
    (timeout_normalization (fun t => t == "L") allTimeout "u"
      ⟨some "L", none, [], []⟩).2.2.2 (by decide) (by decide) (by decide) rfl⟩

/-! ### Claim C7: login-token reuse -/

theorem countLogin_append (a b : List Endpoint) :
    countLogin (a ++ b) = countLogin a + countLogin b :=
  List.countP_append _ _ _

theorem getLoginToken_of_valid {validExp : String → Bool} {oracle : Oracle}
    {s : AuthState} (hv : is_valid_tokenO validExp s.loginToken = true) :
    AuthClient.getLoginToken validExp oracle s = (.ok s.loginToken, s, []) := by
  simp [AuthClient.getLoginToken, hv]

theorem getLoginToken_countLogin_le_one (validExp : String → Bool)
    (oracle : Oracle) (s : AuthState) :
    countLogin (AuthClient.getLoginToken validExp oracle s).2.2 ≤ 1 := by
  unfold AuthClient.getLoginToken
  by_cases hv : is_valid_tokenO validExp s.loginToken
  · simp [hv, countLogin]
  · cases horacle : oracle .loginToken with
    | timeout =>
      simp [hv, AuthClient.createLoginToken, horacle, get_response_timeout,
        countLogin]
    | ok r =>
      by_cases hr : r.status = 200 <;>
        simp [hv, AuthClient.createLoginToken, horacle, hr, countLogin]

theorem plainMiss_countLogin (validExp : String → Bool) (oracle : Oracle)
    (s : AuthState) :
    countLogin (AuthClient.createBackendTokenPlainMiss validExp oracle s).reqs
      = countLogin (AuthClient.getLoginToken validExp oracle s).2.2 := by
  unfold AuthClient.createBackendTokenPlainMiss
  rcases hg : AuthClient.getLoginToken validExp oracle s with ⟨res, s1, reqs⟩
  cases res with
  | error resp => simp [hg]
  | ok tok =>
    cases horacle : oracle .backendToken with
    | timeout => simp [hg, horacle, countLogin, List.countP_append]
    | ok resp =>
      by_cases hr : resp.status = 200 <;>
        simp [hg, horacle, hr, countLogin, List.countP_append]

theorem create_backend_token_none_login_le_one (validExp : String → Bool)
    (oracle : Oracle) (s : AuthState) :
    countLogin (AuthClient.create_backend_token validExp oracle none s).reqs ≤ 1 := by
  show countLogin (AuthClient.createBackendTokenPlain validExp oracle s).reqs ≤ 1
  unfold AuthClient.createBackendTokenPlain
  cases hm : AuthClient.getCachedBackendToken validExp s with
  | none =>
    rw [plainMiss_countLogin]
    exact getLoginToken_countLogin_le_one validExp oracle s
  | some t =>
    show countLogin (if t = ""
        then AuthClient.createBackendTokenPlainMiss validExp oracle s
        else ⟨get_reponse_from_token t, s, []⟩).reqs ≤ 1
    by_cases h0 : t = ""
    · rw [if_pos h0, plainMiss_countLogin]
      exact getLoginToken_countLogin_le_one validExp oracle s
    · rw [if_neg h0]
      simp [countLogin]

theorem create_backend_token_none_login_zero (validExp : String → Bool)
    (oracle : Oracle) (s : AuthState)
    (hv : is_valid_tokenO validExp s.loginToken = true) :
    countLogin (AuthClient.create_backend_token validExp oracle none s).reqs = 0 := by
  have hmiss : countLogin
      (AuthClient.createBackendTokenPlainMiss validExp oracle s).reqs = 0 := by
    rw [plainMiss_countLogin, getLoginToken_of_valid hv]
    simp [countLogin]
  show countLogin (AuthClient.createBackendTokenPlain validExp oracle s).reqs = 0
  unfold AuthClient.createBackendTokenPlain
  cases hm : AuthClient.getCachedBackendToken validExp s with
  | none => exact hmiss
  | some t =>
    show countLogin (if t = ""
        then AuthClient.createBackendTokenPlainMiss validExp oracle s
        else ⟨get_reponse_from_token t, s, []⟩).reqs = 0
    by_cases h0 : t = ""
    · rw [if_pos h0]
      exact hmiss
    · rw [if_neg h0]
      simp [countLogin]

/-- C7 (confirmed): across two consecutive `create_backend_token()` calls
made while the cached login token remains within its validity window (i.e.
the login token cached after the first call is still valid when the second
runs), at most one request to `/login_token` is issued in total: a single
call fetches the login token at most once, and the second call reuses the
cached login token (or the cached backend token) instead of re-fetching. -/
theorem login_token_reuse (validExp : String → Bool) (oracle : Oracle)
    (s0 : AuthState)
    (h : is_valid_tokenO validExp
      ((AuthClient.create_backend_token validExp oracle none s0).state).loginToken
      = true) :
    countLogin ((AuthClient.create_backend_token validExp oracle none s0).reqs
      ++ (AuthClient.create_backend_token validExp oracle none
          (AuthClient.create_backend_token validExp oracle none s0).state).reqs)
      ≤ 1 := by
  rw [countLogin_append]
  have h1 := create_backend_token_none_login_le_one validExp oracle s0
  have h2 := create_backend_token_none_login_zero validExp oracle
    (AuthClient.create_backend_token validExp oracle none s0).state h
  omega

/-- The transport used by C7's witness: `/backend_token` succeeds with token
`"B"`, everything else times out. -/
def c7oracle : Oracle := fun e =>
  match e with
  | .backendToken => .ok ⟨200, some [("token", "B")]⟩
  | _ => .timeout

/-- The validity oracle used by C7's witness: tokens `"L"` and `"B"` are
within their expiry window. -/
def c7validExp : String → Bool := fun t => t == "L" || t == "B"

/-- Witness for C7: starting from a client holding a valid login token
`"L"`, two consecutive backend-token calls issue no `/login_token` request
at all. -/
theorem login_token_reuse_witness :
    is_valid_tokenO c7validExp
      ((AuthClient.create_backend_token c7validExp c7oracle none
        ⟨some "L", none, [], []⟩).state).loginToken = true
    ∧ countLogin ((AuthClient.create_backend_token c7validExp c7oracle none
        ⟨some "L", none, [], []⟩).reqs
      ++ (AuthClient.create_backend_token c7validExp c7oracle none
          (AuthClient.create_backend_token c7validExp c7oracle none
            ⟨some "L", none, [], []⟩).state).reqs) ≤ 1 :=
  ⟨by decide,
    login_token_reuse c7validExp c7oracle ⟨some "L", none, [], []⟩ (by decide)⟩

/-! ### Claim C1: expiry and refetch on the stack-backed paths -/

theorem create_user_token_hit (validExp : String → Bool) (oracle : Oracle)
    (K : String) (s : AuthState) (t : String) (d2 : Cache)
    (hget : CachedTokenStack.get validExp defaultMaxSize K s.userStack = (some t, d2))
    (htne : t ≠ "") :
    AuthClient.create_user_token validExp oracle K s
      = ⟨get_reponse_from_token t, { s with userStack := d2 }, []⟩ := by
  unfold AuthClient.create_user_token
  rw [hget]
  simp [htne]

theorem create_backend_token_user_hit (validExp : String → Bool) (oracle : Oracle)
    (K : String) (s : AuthState) (t : String) (d2 : Cache)
    (hget : CachedTokenStack.get validExp defaultMaxSize K s.backendStack = (some t, d2))
    (htne : t ≠ "") :
    AuthClient.createBackendTokenUser validExp oracle K s
      = ⟨get_reponse_from_token t, { s with backendStack := d2 }, []⟩ := by
  unfold AuthClient.createBackendTokenUser
  rw [hget]
  simp [htne]

theorem create_user_token_miss_fetch (validExp : String → Bool) (oracle : Oracle)
    (K : String) (s1 : AuthState) (tNew : String)
    (hmiss : dictGet K s1.userStack = none)
    (hlogin : is_valid_tokenO validExp s1.loginToken = true)
    (horacle : oracle (.userToken K) = .ok ⟨200, some [("token", tNew)]⟩) :
    AuthClient.create_user_token validExp oracle K s1
      = ⟨⟨200, some [("token", tNew)]⟩,
         { s1 with userStack := CachedTokenStack.add K tNew s1.userStack },
         [.userToken K]⟩ := by
  have hgetfull : CachedTokenStack.get validExp defaultMaxSize K s1.userStack
      = (none, s1.userStack) := by
    unfold CachedTokenStack.get
    rw [hmiss]
  unfold AuthClient.create_user_token
  rw [hgetfull]
  simp [AuthClient.createUserTokenMiss, AuthClient.getLoginToken, hlogin, horacle,
    get_token_from_response]

theorem create_backend_token_user_miss_fetch (validExp : String → Bool)
    (oracle : Oracle) (K : String) (s1 : AuthState) (tNew : String)
    (hmiss : dictGet K s1.backendStack = none)
    (hlogin : is_valid_tokenO validExp s1.loginToken = true)
    (horacle : oracle (.backendTokenUser K) = .ok ⟨200, some [("token", tNew)]⟩) :
    AuthClient.createBackendTokenUser validExp oracle K s1
      = ⟨⟨200, some [("token", tNew)]⟩,
         { s1 with backendStack := CachedTokenStack.add K tNew s1.backendStack },
         [.backendTokenUser K]⟩ := by
  have hgetfull : CachedTokenStack.get validExp defaultMaxSize K s1.backendStack
      = (none, s1.backendStack) := by
    unfold CachedTokenStack.get
    rw [hmiss]
  unfold AuthClient.createBackendTokenUser
  rw [hgetfull]
  simp [AuthClient.createBackendTokenUserMiss, AuthClient.getLoginToken, hlogin,
    horacle, get_token_from_response]

/-- C1 (corrected): a token-acquisition call for a key `K` whose cached
entry is expired does NOT treat the cache as a miss: the cache's `get`
captures the token before sweeping, so the call returns the stale token
wrapped in a synthesized 200 response with no HTTP request.  The expiry
sweep triggered by that hit evicts the expired entries (here: the expired
entries precede the valid ones, their values are nonempty, and the
latest-inserted expired value is not repeated earlier, so the whole expired
prefix including `K`'s entry goes), hence the NEXT call for `K` misses,
fetches a fresh token, and overwrites the cache entry for `K`.  Both the
user-token path and the backend-with-user path behave this way. -/
theorem stale_hit_then_refetch (validExp : String → Bool) (oracle : Oracle) :
    (∀ (s : AuthState) (pre : Cache) (kl v : String) (suf : Cache)
        (K t tNew : String),
      s.userStack = pre ++ (kl, v) :: suf →
      (∀ e ∈ pre, is_valid_tokenB validExp e.2 = false) →
      is_valid_tokenB validExp v = false →
      v ≠ "" →
      (∀ e ∈ pre, e.2 ≠ v) →
      (∀ e ∈ suf, is_valid_tokenB validExp e.2 = true) →
      suf.length ≤ defaultMaxSize →
      (K, t) ∈ pre ++ [(kl, v)] →
      t ≠ "" →
      ((pre ++ (kl, v) :: suf).map Prod.fst).Nodup →
      is_valid_tokenO validExp s.loginToken = true →
      oracle (.userToken K) = .ok ⟨200, some [("token", tNew)]⟩ →
      ((AuthClient.create_user_token validExp oracle K s).resp
          = get_reponse_from_token t
        ∧ (AuthClient.create_user_token validExp oracle K s).reqs = []
        ∧ (AuthClient.create_user_token validExp oracle K
            (AuthClient.create_user_token validExp oracle K s).state).reqs
          = [.userToken K]
        ∧ (AuthClient.create_user_token validExp oracle K
            (AuthClient.create_user_token validExp oracle K s).state).resp.status
          = 200
        ∧ get_token_from_response (AuthClient.create_user_token validExp oracle K
            (AuthClient.create_user_token validExp oracle K s).state).resp
          = some tNew
        ∧ dictGet K (AuthClient.create_user_token validExp oracle K
            (AuthClient.create_user_token validExp oracle K s).state).state.userStack
          = some tNew))
    ∧ (∀ (s : AuthState) (pre : Cache) (kl v : String) (suf : Cache)
        (K t tNew : String),
      K ≠ "" →
      s.backendStack = pre ++ (kl, v) :: suf →
      (∀ e ∈ pre, is_valid_tokenB validExp e.2 = false) →
      is_valid_tokenB validExp v = false →
      v ≠ "" →
      (∀ e ∈ pre, e.2 ≠ v) →
      (∀ e ∈ suf, is_valid_tokenB validExp e.2 = true) →
      suf.length ≤ defaultMaxSize →
      (K, t) ∈ pre ++ [(kl, v)] →
      t ≠ "" →
      ((pre ++ (kl, v) :: suf).map Prod.fst).Nodup →
      is_valid_tokenO validExp s.loginToken = true →
      oracle (.backendTokenUser K) = .ok ⟨200, some [("token", tNew)]⟩ →
      ((AuthClient.create_backend_token validExp oracle (some K) s).resp
          = get_reponse_from_token t
        ∧ (AuthClient.create_backend_token validExp oracle (some K) s).reqs = []
        ∧ (AuthClient.create_backend_token validExp oracle (some K)
            (AuthClient.create_backend_token validExp oracle (some K) s).state).reqs
          = [.backendTokenUser K]
        ∧ (AuthClient.create_backend_token validExp oracle (some K)
            (AuthClient.create_backend_token validExp oracle (some K) s).state).resp.status
          = 200
        ∧ get_token_from_response (AuthClient.create_backend_token validExp oracle
            (some K)
            (AuthClient.create_backend_token validExp oracle (some K) s).state).resp
          = some tNew
        ∧ dictGet K (AuthClient.create_backend_token validExp oracle (some K)
            (AuthClient.create_backend_token validExp oracle (some K) s).state).state.backendStack
          = some tNew)) := by
  constructor
  · intro s pre kl v suf K t tNew hstack hpre hv hvne hnodupv hsuf hcap hmem htne
      hkeys hlogin horacle
    have hsplit : pre ++ (kl, v) :: suf = (pre ++ [(kl, v)]) ++ suf := by simp
    have hmem' : (K, t) ∈ pre ++ (kl, v) :: suf := by
      rw [hsplit]
      exact List.mem_append_left _ hmem
    have hget1 : dictGet K (pre ++ (kl, v) :: suf) = some t :=
      dictGet_of_mem_nodup hmem' hkeys
    have hKsuf : ∀ e ∈ suf, e.1 ≠ K := by
      intro e he hek
      rw [hsplit, List.map_append] at hkeys
      exact (List.nodup_append.mp hkeys).2.2
        (List.mem_map.mpr ⟨(K, t), hmem, rfl⟩)
        (hek ▸ List.mem_map.mpr ⟨e, he, rfl⟩)
    have hgetfull : CachedTokenStack.get validExp defaultMaxSize K s.userStack
        = (some t, suf) := by
      rw [hstack]
      unfold CachedTokenStack.get
      rw [hget1]
      show (if t = "" then (some t, pre ++ (kl, v) :: suf)
          else (some t, CachedTokenStack.clearIfMaxSizeExceeded defaultMaxSize
            (CachedTokenStack.clearExpiredTokens validExp (pre ++ (kl, v) :: suf))))
        = (some t, suf)
      rw [if_neg htne,
        CachedTokenStack.clearExpiredTokens_decomp validExp pre kl v suf hsuf hv
          hvne hnodupv,
        CachedTokenStack.clearIfMaxSizeExceeded_of_le hcap]
    have hcall1 := create_user_token_hit validExp oracle K s t suf hgetfull htne
    have hget2 : dictGet K suf = none := dictGet_eq_none hKsuf
    have hcall2 := create_user_token_miss_fetch validExp oracle K
      { s with userStack := suf } tNew hget2 hlogin horacle
    have hadd : CachedTokenStack.add K tNew suf = suf ++ [(K, tNew)] :=
      dictSet_append_of_none hKsuf
    refine ⟨by rw [hcall1], by rw [hcall1], ?_, ?_, ?_, ?_⟩
    · rw [hcall1]
      show (AuthClient.create_user_token validExp oracle K
        { s with userStack := suf }).reqs = [.userToken K]
      rw [hcall2]
    · rw [hcall1]
      show (AuthClient.create_user_token validExp oracle K
        { s with userStack := suf }).resp.status = 200
      rw [hcall2]
    · rw [hcall1]
      show get_token_from_response (AuthClient.create_user_token validExp oracle K
        { s with userStack := suf }).resp = some tNew
      rw [hcall2]
      simp [get_token_from_response]
    · rw [hcall1]
      show dictGet K (AuthClient.create_user_token validExp oracle K
        { s with userStack := suf }).state.userStack = some tNew
      rw [hcall2]
      show dictGet K (CachedTokenStack.add K tNew suf) = some tNew
      rw [hadd, dictGet_append_of_none hKsuf]
      simp [dictGet]
  · intro s pre kl v suf K t tNew hKne hstack hpre hv hvne hnodupv hsuf hcap hmem
      htne hkeys hlogin horacle
    have hsplit : pre ++ (kl, v) :: suf = (pre ++ [(kl, v)]) ++ suf := by simp
    have hmem' : (K, t) ∈ pre ++ (kl, v) :: suf := by
      rw [hsplit]
      exact List.mem_append_left _ hmem
    have hget1 : dictGet K (pre ++ (kl, v) :: suf) = some t :=
      dictGet_of_mem_nodup hmem' hkeys
    have hKsuf : ∀ e ∈ suf, e.1 ≠ K := by
      intro e he hek
      rw [hsplit, List.map_append] at hkeys
      exact (List.nodup_append.mp hkeys).2.2
        (List.mem_map.mpr ⟨(K, t), hmem, rfl⟩)
        (hek ▸ List.mem_map.mpr ⟨e, he, rfl⟩)
    have hgetfull : CachedTokenStack.get validExp defaultMaxSize K s.backendStack
        = (some t, suf) := by
      rw [hstack]
      unfold CachedTokenStack.get
      rw [hget1]
      show (if t = "" then (some t, pre ++ (kl, v) :: suf)
          else (some t, CachedTokenStack.clearIfMaxSizeExceeded defaultMaxSize
            (CachedTokenStack.clearExpiredTokens validExp (pre ++ (kl, v) :: suf))))
        = (some t, suf)
      rw [if_neg htne,
        CachedTokenStack.clearExpiredTokens_decomp validExp pre kl v suf hsuf hv
          hvne hnodupv,
        CachedTokenStack.clearIfMaxSizeExceeded_of_le hcap]
    have hdisp : AuthClient.create_backend_token validExp oracle (some K) s
        = AuthClient.createBackendTokenUser validExp oracle K s := by
      simp [AuthClient.create_backend_token, hKne]
    have hcall1 := create_backend_token_user_hit validExp oracle K s t suf
      hgetfull htne
    have hget2 : dictGet K suf = none := dictGet_eq_none hKsuf
    have hcall2 := create_backend_token_user_miss_fetch validExp oracle K
      { s with backendStack := suf } tNew hget2 hlogin horacle
    have hdisp2 : AuthClient.create_backend_token validExp oracle (some K)
        { s with backendStack := suf }
        = AuthClient.createBackendTokenUser validExp oracle K
          { s with backendStack := suf } := by
      simp [AuthClient.create_backend_token, hKne]
    have hadd : CachedTokenStack.add K tNew suf = suf ++ [(K, tNew)] :=
      dictSet_append_of_none hKsuf
    refine ⟨by rw [hdisp, hcall1], by rw [hdisp, hcall1], ?_, ?_, ?_, ?_⟩
    · rw [hdisp, hcall1]
      show (AuthClient.create_backend_token validExp oracle (some K)
        { s with backendStack := suf }).reqs = [.backendTokenUser K]
      rw [hdisp2, hcall2]
    · rw [hdisp, hcall1]
      show (AuthClient.create_backend_token validExp oracle (some K)
        { s with backendStack := suf }).resp.status = 200
      rw [hdisp2, hcall2]
    · rw [hdisp, hcall1]
      show get_token_from_response (AuthClient.create_backend_token validExp oracle
        (some K) { s with backendStack := suf }).resp = some tNew
      rw [hdisp2, hcall2]
      simp [get_token_from_response]
    · rw [hdisp, hcall1]
      show dictGet K (AuthClient.create_backend_token validExp oracle (some K)
        { s with backendStack := suf }).state.backendStack = some tNew
      rw [hdisp2, hcall2]
      show dictGet K (CachedTokenStack.add K tNew suf) = some tNew
      rw [hadd, dictGet_append_of_none hKsuf]
      simp [dictGet]

/-- C1 counterexample: the sole cached user token for `"u"` is expired
(`validExp` rejects every token), yet `create_user_token("u")` returns that
stale token in a synthesized 200 response and issues no HTTP request — the
call does not treat the expired entry as a miss. -/
theorem stale_hit_counterexample :
    get_token_from_response (AuthClient.create_user_token (fun _ => false)
        allTimeout "u" ⟨some "L", none, [], [("u", "stale")]⟩).resp = some "stale"
    ∧ (AuthClient.create_user_token (fun _ => false) allTimeout "u"
        ⟨some "L", none, [], [("u", "stale")]⟩).resp.status = 200
    ∧ (AuthClient.create_user_token (fun _ => false) allTimeout "u"
        ⟨some "L", none, [], [("u", "stale")]⟩).reqs = [] := by
  decide

/-- The transport used by C1's witness: the two per-user mint endpoints for
`"u"` succeed with fresh tokens, everything else times out. -/
def c1oracle : Oracle := fun e =>
  match e with
  | .userToken "u" => .ok ⟨200, some [("token", "fresh")]⟩
  | .backendTokenUser "u" => .ok ⟨200, some [("token", "freshB")]⟩
  | _ => .timeout

/-- The validity oracle used by C1's witness: the login token and the two
fresh tokens are within their expiry window; the stale tokens are not. -/
def c1validExp : String → Bool := fun t =>
  t == "L" || t == "fresh" || t == "freshB"

/-- Witness for C1's corrected statement on singleton stacks holding expired
tokens: the first call returns the stale token with no request; the second
call fetches the fresh token and overwrites the entry.  Both paths. -/
theorem stale_hit_then_refetch_witness :
    ((AuthClient.create_user_token c1validExp c1oracle "u"
        ⟨some "L", none, [("u", "staleB")], [("u", "stale")]⟩).resp
      = get_reponse_from_token "stale"
    ∧ (AuthClient.create_user_token c1validExp c1oracle "u"
        ⟨some "L", none, [("u", "staleB")], [("u", "stale")]⟩).reqs = []
    ∧ (AuthClient.create_user_token c1validExp c1oracle "u"
        (AuthClient.create_user_token c1validExp c1oracle "u"
          ⟨some "L", none, [("u", "staleB")], [("u", "stale")]⟩).state).reqs
      = [.userToken "u"]
    ∧ (AuthClient.create_user_token c1validExp c1oracle "u"
        (AuthClient.create_user_token c1validExp c1oracle "u"
          ⟨some "L", none, [("u", "staleB")], [("u", "stale")]⟩).state).resp.status
      = 200
    ∧ get_token_from_response (AuthClient.create_user_token c1validExp c1oracle "u"
        (AuthClient.create_user_token c1validExp c1oracle "u"
          ⟨some "L", none, [("u", "staleB")], [("u", "stale")]⟩).state).resp
      = some "fresh"
    ∧ dictGet "u" (AuthClient.create_user_token c1validExp c1oracle "u"
        (AuthClient.create_user_token c1validExp c1oracle "u"
          ⟨some "L", none, [("u", "staleB")], [("u", "stale")]⟩).state).state.userStack
      = some "fresh")
    ∧ ((AuthClient.create_backend_token c1validExp c1oracle (some "u")
        ⟨some "L", none, [("u", "staleB")], [("u", "stale")]⟩).resp
      = get_reponse_from_token "staleB"
    ∧ (AuthClient.create_backend_token c1validExp c1oracle (some "u")
        ⟨some "L", none, [("u", "staleB")], [("u", "stale")]⟩).reqs = []
    ∧ (AuthClient.create_backend_token c1validExp c1oracle (some "u")
        (AuthClient.create_backend_token c1validExp c1oracle (some "u")
          ⟨some "L", none, [("u", "staleB")], [("u", "stale")]⟩).state).reqs
      = [.backendTokenUser "u"]
    ∧ (AuthClient.create_backend_token c1validExp c1oracle (some "u")
        (AuthClient.create_backend_token c1validExp c1oracle (some "u")
          ⟨some "L", none, [("u", "staleB")], [("u", "stale")]⟩).state).resp.status
      = 200
    ∧ get_token_from_response (AuthClient.create_backend_token c1validExp c1oracle
        (some "u")
        (AuthClient.create_backend_token c1validExp c1oracle (some "u")
          ⟨some "L", none, [("u", "staleB")], [("u", "stale")]⟩).state).resp
      = some "freshB"
    ∧ dictGet "u" (AuthClient.create_backend_token c1validExp c1oracle (some "u")
        (AuthClient.create_backend_token c1validExp c1oracle (some "u")
          ⟨some "L", none, [("u", "staleB")], [("u", "stale")]⟩).state).state.backendStack
      = some "freshB") :=
  ⟨(stale_hit_then_refetch c1validExp c1oracle).1
      ⟨some "L", none, [("u", "staleB")], [("u", "stale")]⟩ [] "u" "stale" [] "u"
      "stale" "fresh" (by decide) (by decide) (by decide) (by decide) (by decide)
      (by decide) (by decide) (by decide) (by decide) (by decide) (by decide)
      (by decide),
    (stale_hit_then_refetch c1validExp c1oracle).2
      ⟨some "L", none, [("u", "staleB")], [("u", "stale")]⟩ [] "u" "staleB" [] "u"
      "staleB" "freshB" (by decide) (by decide) (by decide) (by decide)
      (by decide) (by decide) (by decide) (by decide) (by decide) (by decide)
      (by decide) (by decide) (by decide)⟩

end Alice
